import Mathlib

/-!
Verification of the hrun remote-PTY server and client (main.go) against its
design specification.

The Go source is shallowly embedded.  Strings travelling over the wire are
lists of characters; the per-connection server logic, the control-line reader
and the client's argument handling are pure Lean functions translated from
`handleConnection`, `startClient` and `main`; external OS services that the
spec declares out of scope (JSON decoding, PTY allocation, `pty.Setsize`,
`cmd.Start`) are oracles recorded in a `ServerEnv` value, since only their
success or failure influences the control flow under scrutiny.

The server's post-handshake connection handling spawns two concurrent readers
of the same socket: `io.Copy(ptyMaster, conn)` (raw data forwarding,
main.go lines 198-202) and the `bufio.Reader` control loop
(main.go lines 205-237).  The race between them is embedded explicitly as a
schedule that routes each delivered chunk to one of the two readers
(`raceRun`); which reader receives a given chunk is decided by the operating
system in the real program, so every schedule is a possible execution.
-/

namespace Hrun

/-- Characters recognised as white space by Go `strings.TrimSpace`
(`unicode.IsSpace`) within the Latin-1 range: TAB, LF, VT, FF, CR, SPACE,
NEL (U+0085) and NBSP (U+00A0).  Higher Unicode space code points never occur
in the protocol lines considered here. -/
def goIsSpace (c : Char) : Bool :=
  decide (c.toNat = 9 ∨ c.toNat = 10 ∨ c.toNat = 11 ∨ c.toNat = 12 ∨
          c.toNat = 13 ∨ c.toNat = 32 ∨ c.toNat = 133 ∨ c.toNat = 160)

/-- ASCII decimal digit test, as used by `strconv.ParseInt` in base 10. -/
def isDigitCh (c : Char) : Bool :=
  decide (48 ≤ c.toNat ∧ c.toNat ≤ 57)

/-- Right half of Go `strings.TrimSpace`: drop trailing characters
satisfying `p`. -/
def dropRightWhile (p : Char → Bool) (s : List Char) : List Char :=
  (s.reverse.dropWhile p).reverse

/-- Go `strings.TrimSpace` (main.go line 214): drop leading and trailing
white space. -/
def trimSpace (s : List Char) : List Char :=
  dropRightWhile goIsSpace (s.dropWhile goIsSpace)

/-- Go `strings.Split` with a one-character separator, as used with ":" at
main.go line 215.  Always returns at least one (possibly empty) field. -/
def splitOnChar (sep : Char) : List Char → List (List Char)
  | [] => [[]]
  | c :: rest =>
    if c = sep then [] :: splitOnChar sep rest
    else
      match splitOnChar sep rest with
      | [] => [[c]]
      | h :: t => (c :: h) :: t

/-- Decimal digit accumulation of `strconv.ParseUint` base 10: consume every
character, failing on the first non-digit. -/
def digitsToNat (acc : Nat) : List Char → Option Nat
  | [] => some acc
  | c :: rest =>
    if isDigitCh c = true then digitsToNat (acc * 10 + (c.toNat - 48)) rest
    else none

/-- Magnitude and sign handling of `strconv.ParseInt` (hence `strconv.Atoi`,
main.go lines 217-218): an empty digit string is a syntax error, and the
signed result must fit a 64-bit two's-complement integer. -/
def atoiCore (neg : Bool) (digits : List Char) : Option Int :=
  if digits = [] then none
  else
    match digitsToNat 0 digits with
    | none => none
    | some n =>
      if neg = true then
        if n ≤ 2 ^ 63 then some (-(n : Int)) else none
      else
        if n < 2 ^ 63 then some ((n : Int)) else none

/-- Go `strconv.Atoi`: optional single leading sign, then decimal digits. -/
def atoi (s : List Char) : Option Int :=
  match s with
  | [] => none
  | c :: rest =>
    if c = '-' then atoiCore true rest
    else if c = '+' then atoiCore false rest
    else atoiCore false s

/-- Go conversion `uint16(x)` applied to a value of type `int`
(main.go lines 224-225): reduction modulo 2^16 in two's-complement style,
so for example `uint16(-1) = 65535`. -/
def u16 (x : Int) : Nat := (Int.emod x 65536).toNat

/-- The control-frame marker `"resize:"` checked with `strings.HasPrefix`
at main.go line 212. -/
def resizePre : List Char := ['r', 'e', 's', 'i', 'z', 'e', ':']

/-- PTY geometry, after `pty.Winsize` (columns and rows). -/
structure Winsize where
  cols : Nat
  rows : Nat
  deriving DecidableEq, Repr

/-- Parsing of one candidate resize line by the control loop
(main.go lines 214-225): trim the line, split on ":", require exactly three
fields, convert both dimension fields with `strconv.Atoi`, and truncate each
to `uint16`. -/
def parseResize (l : List Char) : Option (Nat × Nat) :=
  match splitOnChar ':' (trimSpace l) with
  | [_, ws, hs] =>
    match atoi ws, atoi hs with
    | some w, some h => some (u16 w, u16 h)
    | _, _ => none
  | _ => none

/-- One iteration of the control-reader loop of `handleConnection`
(main.go lines 205-237) on a complete line `l`: a line carrying the
`resize:` marker is parsed and, when parsing succeeds and the OS-level
`pty.Setsize` call does not fail (`sizeFail = false`), the stored geometry is
replaced; in every other case the geometry is kept and the line has no
further effect.  The loop never writes to the PTY. -/
def controlStep (sizeFail : Bool) (g : Winsize) (l : List Char) : Winsize :=
  if resizePre.isPrefixOf l = true then
    match parseResize l with
    | some (w, h) => if sizeFail = true then g else ⟨w, h⟩
    | none => g
  else g

/-- The control-reader loop run over a whole sequence of complete lines, each
paired with the success or failure of its `pty.Setsize` call; the loop ends
only when its reader is exhausted. -/
def controlRun : List (List Char × Bool) → Winsize → Winsize
  | [], g => g
  | (l, f) :: rest, g => controlRun rest (controlStep f g l)

/-- Post-handshake consumption of the connection by the two concurrent
readers started in `handleConnection`: `io.Copy(ptyMaster, conn)`
(main.go lines 198-202) and the control loop over the `bufio.Reader`
(main.go lines 205-237).  Each delivered chunk is received by exactly one of
them, chosen by the schedule: `true` routes the chunk to the raw copier,
which forwards its bytes verbatim into the PTY (the child's input), `false`
routes it to the control reader, which treats it as a protocol line.
The result is the final PTY geometry and the list of chunks forwarded into
the child's input. -/
def raceRun : List Bool → List (List Char) → Winsize → Winsize × List (List Char)
  | toData :: sched, chunk :: chunks, g =>
    if toData = true then
      ((raceRun sched chunks g).1, chunk :: (raceRun sched chunks g).2)
    else
      raceRun sched chunks (controlStep false g chunk)
  | _, _, g => (g, [])

/-- The decoded first protocol line, after the Go struct `Command`
(main.go lines 23-27): the argv vector and the initial dimensions. -/
structure Command where
  command : List String
  width : Nat
  height : Nat
  deriving DecidableEq, Repr

/-- File handles a spawned child's standard streams can be bound to. -/
inductive FD
  | ptySlave
  | other
  deriving DecidableEq, Repr

/-- The POSIX signals appearing in main.go. -/
inductive Sig
  | sigint
  | sigterm
  | sigquit
  | sigkill
  | sigwinch
  deriving DecidableEq, Repr

/-- The process configuration passed to `exec.Command` plus
`SysProcAttr` in `handleConnection` (main.go lines 240-250). -/
structure SpawnedProc where
  prog : String
  args : List String
  stdin : FD
  stdout : FD
  stderr : FD
  setsid : Bool
  setctty : Bool
  pdeathsig : Option Sig
  deriving DecidableEq, Repr

/-- Outcomes of the external services consumed by `handleConnection`, which
the spec scopes out as OS services: the result of reading and JSON-decoding
the first line (`none` on read or decode error), and the success of
`pty.Open`, of the initial `pty.Setsize`, and of `cmd.Start`. -/
structure ServerEnv where
  decoded : Option Command
  ptyOpenOk : Bool
  setsizeOk : Bool
  startOk : Bool
  deriving DecidableEq, Repr

/-- Observable outcome of one run of `handleConnection`: the child process
spawned (if any), whether the connection ends up closed (`defer conn.Close()`
runs on every return path), and the initial PTY geometry applied (if any). -/
structure HandleResult where
  spawned : Option SpawnedProc
  connClosed : Bool
  geom : Option Winsize
  deriving DecidableEq, Repr

/-- Sequential prefix of `handleConnection` (main.go lines 130-257), up to
and including the spawn decision: decode the first line, reject an empty
argv, reject argv[0] outside a configured non-empty allow-list, open the
PTY, apply the initial geometry (failure is only logged), and start the
child with argv[0] as program, argv[1:] as arguments, all three standard
streams on the PTY slave, `Setsid`, `Setctty` and `Pdeathsig = SIGTERM`. -/
def handleConnection (env : ServerEnv) (allowedCmds : List String) : HandleResult :=
  match env.decoded with
  | none => ⟨none, true, none⟩
  | some cmdStruct =>
    match cmdStruct.command with
    | [] => ⟨none, true, none⟩
    | prog :: rest =>
      if 0 < allowedCmds.length ∧ prog ∉ allowedCmds then
        ⟨none, true, none⟩
      else if env.ptyOpenOk = false then
        ⟨none, true, none⟩
      else
        let geom : Option Winsize :=
          if env.setsizeOk = true then some ⟨cmdStruct.width, cmdStruct.height⟩
          else none
        if env.startOk = false then
          ⟨none, true, geom⟩
        else
          ⟨some ⟨prog, rest, FD.ptySlave, FD.ptySlave, FD.ptySlave,
                 true, true, some Sig.sigterm⟩,
           true, geom⟩

/-- The signals the server subscribes to for shutdown, in `startServer`
(main.go line 93) and in each session handler (main.go line 260). -/
def serverTermSignals : List Sig := [Sig.sigint, Sig.sigterm, Sig.sigquit]

/-- Per-session teardown flags observed on shutdown. -/
structure SessionState where
  childKilled : Bool
  connClosed : Bool
  deriving DecidableEq, Repr

/-- Reaction of one active session's signal goroutine
(main.go lines 263-267): `conn.Close()` followed by
`syscall.Kill(-pid, SIGKILL)`, i.e. a kill of the child's whole process
group. -/
def sessionOnTermSignal (_s : SessionState) : SessionState :=
  ⟨true, true⟩

/-- Server-wide state: whether the accept loop is still running, and the
active sessions. -/
structure ServerState where
  accepting : Bool
  sessions : List SessionState
  deriving DecidableEq, Repr

/-- Effect of one host-level termination signal on the whole server:
`signal.Notify` delivers it both to the channel of `startServer`
(main.go lines 91-98), whose accept loop then returns, and to the channel of
every active session's shutdown goroutine (main.go lines 259-267). -/
def serverOnTermSignal (st : ServerState) : ServerState :=
  ⟨false, st.sessions.map sessionOnTermSignal⟩

/-- The only signal `startClient` subscribes to (main.go lines 324-325):
SIGWINCH, used to emit resize notifications.  No termination signal is
handled. -/
def clientHandledSignals : List Sig := [Sig.sigwinch]

/-- The ways `startClient` can stop after entering raw mode: one of the two
copy directions reaches end of stream, one of them fails, or the process is
killed by a fatal signal it did not subscribe to. -/
inductive ClientExit
  | endOfStream
  | streamError
  | fatalSignal
  deriving DecidableEq, Repr

/-- Whether the terminal is restored on a given exit.  The deferred
`term.Restore` (main.go line 338) runs whenever `startClient` returns, which
covers both end of stream and stream errors (either copy goroutine closes
`doneCh` and the function returns).  A fatal signal with default disposition
terminates the Go process immediately: deferred calls do not run, and
`startClient` subscribes to no termination signal, so the terminal is left
in raw mode. -/
def restoredOnExit : ClientExit → Bool
  | ClientExit.endOfStream => true
  | ClientExit.streamError => true
  | ClientExit.fatalSignal => false

/-- Selection of the remotely executed command in client mode
(main.go lines 70-77): when the binary's basename is `"hrun"` and there are
no positional arguments, the command is `["sh", "-c", $SHELL]`; otherwise it
is exactly the positional arguments. -/
def clientCommand (argv0Base : String) (args : List String) (shellEnv : String) :
    List String :=
  if argv0Base = "hrun" ∧ args = [] then ["sh", "-c", shellEnv] else args

/-- C1: the claim states that control-frame detection and raw-data forwarding
use a single shared sequential read cursor, so control bytes are never
duplicated into the data path.  The code instead races two uncoordinated
readers over the connection: depending on which reader the OS hands the
chunk to, the very same wire content (one well-formed resize line) is either
forwarded verbatim into the child's input with the geometry untouched
(schedule `[true]`, the raw copier wins) or consumed as a control frame
(schedule `[false]`).  This refutes the single-cursor property on the code;
the spec itself calls this two-reader race a defect. -/
theorem c1_two_reader_race :
    raceRun [true] [("resize:100:50\n").toList] ⟨80, 24⟩ =
      (⟨80, 24⟩, [("resize:100:50\n").toList]) ∧
    raceRun [false] [("resize:100:50\n").toList] ⟨80, 24⟩ = (⟨100, 50⟩, []) := by
  decide

/-- C2: the claim states that after the server processes a well-formed
`resize:W:H` line the geometry is exactly (W, H) and none of the line's
bytes reach the child's input.  Because of the two-reader race, there is an
execution (schedule `[true]`) in which the raw copier consumes the line:
its bytes are forwarded into the child's input and the geometry stays at its
old value, different from (120, 40). -/
theorem c2_resize_leak :
    raceRun [true] [("resize:120:40\n").toList] ⟨80, 24⟩ =
      (⟨80, 24⟩, [("resize:120:40\n").toList]) ∧
    raceRun [false] [("resize:120:40\n").toList] ⟨80, 24⟩ = (⟨120, 40⟩, []) ∧
    (⟨80, 24⟩ : Winsize) ≠ (⟨120, 40⟩ : Winsize) := by
  decide

/-- C3: if the first line is unreadable or undecodable, or the decoded argv
is empty, or argv[0] is absent from a configured non-empty allow-list, then
`handleConnection` spawns no child process and the connection is closed. -/
theorem c3_no_spawn (env : ServerEnv) (allowedCmds : List String)
    (h : env.decoded = none ∨
         (∃ c, env.decoded = some c ∧ c.command = []) ∨
         (∃ c p r, env.decoded = some c ∧ c.command = p :: r ∧
            allowedCmds ≠ [] ∧ p ∉ allowedCmds)) :
    (handleConnection env allowedCmds).spawned = none ∧
    (handleConnection env allowedCmds).connClosed = true := by
  rcases h with h | ⟨c, hc, hcmd⟩ | ⟨c, p, r, hc, hcmd, hne, hmem⟩
  · simp [handleConnection, h]
  · simp [handleConnection, hc, hcmd]
  · have hlen : 0 < allowedCmds.length := List.length_pos.mpr hne
    simp [handleConnection, hc, hcmd, hlen, hmem]

/-- Witness for C3 at a concrete disallowed command. -/
theorem c3_no_spawn_witness :
    (handleConnection ⟨some ⟨["rm", "-rf", "/"], 80, 24⟩, true, true, true⟩
        ["ls"]).spawned = none ∧
    (handleConnection ⟨some ⟨["rm", "-rf", "/"], 80, 24⟩, true, true, true⟩
        ["ls"]).connClosed = true :=
  c3_no_spawn ⟨some ⟨["rm", "-rf", "/"], 80, 24⟩, true, true, true⟩ ["ls"]
    (Or.inr (Or.inr ⟨⟨["rm", "-rf", "/"], 80, 24⟩, "rm", ["-rf", "/"],
      rfl, rfl, by decide, by decide⟩))

/-- C4: for a decoded descriptor with non-empty argv whose argv[0] is
allowed (or with no allow-list configured), when the external PTY open,
initial resize and process start succeed, `handleConnection` spawns exactly
argv[0] with argv[1:] as arguments, all three standard streams bound to the
PTY slave, in a new session with the controlling terminal set and
`Pdeathsig = SIGTERM`, and the applied initial geometry is the descriptor's
width and height. -/
theorem c4_spawn_exact (env : ServerEnv) (allowedCmds : List String)
    (c : Command) (p : String) (r : List String)
    (hdec : env.decoded = some c) (hcmd : c.command = p :: r)
    (hallow : allowedCmds = [] ∨ p ∈ allowedCmds)
    (hpty : env.ptyOpenOk = true) (hsize : env.setsizeOk = true)
    (hstart : env.startOk = true) :
    (handleConnection env allowedCmds).spawned =
      some ⟨p, r, FD.ptySlave, FD.ptySlave, FD.ptySlave,
            true, true, some Sig.sigterm⟩ ∧
    (handleConnection env allowedCmds).geom = some ⟨c.width, c.height⟩ := by
  have hcond : ¬(0 < allowedCmds.length ∧ p ∉ allowedCmds) := by
    rcases hallow with h | h
    · simp [h]
    · simp [h]
  simp [handleConnection, hdec, hcmd, hcond, hpty, hsize, hstart]

/-- Witness for C4 at a concrete allowed command. -/
theorem c4_spawn_exact_witness :
    (handleConnection ⟨some ⟨["ls", "-la"], 120, 40⟩, true, true, true⟩
        ["ls"]).spawned =
      some ⟨"ls", ["-la"], FD.ptySlave, FD.ptySlave, FD.ptySlave,
            true, true, some Sig.sigterm⟩ ∧
    (handleConnection ⟨some ⟨["ls", "-la"], 120, 40⟩, true, true, true⟩
        ["ls"]).geom = some ⟨120, 40⟩ :=
  c4_spawn_exact ⟨some ⟨["ls", "-la"], 120, 40⟩, true, true, true⟩ ["ls"]
    ⟨["ls", "-la"], 120, 40⟩ "ls" ["-la"] rfl rfl (Or.inr (by decide))
    rfl rfl rfl

/-- C5: every resize-related failure is recovered locally.  A resize line
that fails to parse, or one whose OS-level `pty.Setsize` call fails, leaves
the geometry at its previously applied value and the control loop simply
continues with the remaining lines; and a failing initial `pty.Setsize` in
`handleConnection` is only logged — the child is still spawned, so the
session is not aborted. -/
theorem c5_resize_error_recovered (l : List Char) (f : Bool)
    (rest : List (List Char × Bool)) (g : Winsize) (env : ServerEnv)
    (c : Command) (p : String) (r : List String)
    (hpre : resizePre.isPrefixOf l = true)
    (hfail : parseResize l = none ∨ f = true)
    (hdec : env.decoded = some c) (hcmd : c.command = p :: r)
    (hpty : env.ptyOpenOk = true) (hstart : env.startOk = true)
    (hsz : env.setsizeOk = false) :
    controlStep f g l = g ∧
    controlRun ((l, f) :: rest) g = controlRun rest g ∧
    (handleConnection env []).spawned ≠ none := by
  have hstep : controlStep f g l = g := by
    rcases hfail with h | h
    · simp [controlStep, hpre, h]
    · cases hparse : parseResize l with
      | none => simp [controlStep, hpre, hparse]
      | some wh => simp [controlStep, hpre, hparse, h]
  refine ⟨hstep, by simp [controlRun, hstep], ?_⟩
  simp [handleConnection, hdec, hcmd, hpty, hstart, hsz]

/-- Witness for C5: a malformed resize line (non-numeric width) against a
session whose initial resize call failed. -/
theorem c5_resize_error_recovered_witness :
    controlStep false ⟨80, 24⟩ ("resize:12x:9\n").toList = ⟨80, 24⟩ ∧
    controlRun [(("resize:12x:9\n").toList, false)] ⟨80, 24⟩ =
      controlRun [] ⟨80, 24⟩ ∧
    (handleConnection ⟨some ⟨["top"], 80, 24⟩, true, false, true⟩ []).spawned ≠
      none :=
  c5_resize_error_recovered ("resize:12x:9\n").toList false [] ⟨80, 24⟩
    ⟨some ⟨["top"], 80, 24⟩, true, false, true⟩ ⟨["top"], 80, 24⟩ "top" []
    (by decide) (Or.inl (by decide)) rfl rfl rfl rfl rfl

/-- C6: the claim states the terminal is restored on every exit path after
raw mode, including a signal-triggered exit.  The deferred `term.Restore`
does run when either copy direction ends or errors (the function returns),
but `startClient` subscribes to no termination signal — only SIGWINCH — so a
fatal signal kills the process without running the deferred restore, and the
terminal is left in raw mode. -/
theorem c6_signal_no_restore :
    restoredOnExit ClientExit.endOfStream = true ∧
    restoredOnExit ClientExit.streamError = true ∧
    restoredOnExit ClientExit.fatalSignal = false ∧
    Sig.sigterm ∉ clientHandledSignals ∧
    Sig.sigint ∉ clientHandledSignals := by
  decide

/-- C7: a host-level termination signal stops the accept loop and, for
every active session, kills the child's process group and closes the
connection. -/
theorem c7_shutdown (st : ServerState) :
    (serverOnTermSignal st).accepting = false ∧
    ∀ s ∈ (serverOnTermSignal st).sessions,
      s.childKilled = true ∧ s.connClosed = true := by
  refine ⟨rfl, ?_⟩
  intro s hs
  simp only [serverOnTermSignal, List.mem_map] at hs
  obtain ⟨t, _, rfl⟩ := hs
  exact ⟨rfl, rfl⟩

/-- Witness for C7: three active sessions, as in the spec's Scenario D. -/
theorem c7_shutdown_witness :
    (serverOnTermSignal
        ⟨true, [⟨false, false⟩, ⟨false, false⟩, ⟨false, false⟩]⟩).accepting =
      false ∧
    ((⟨true, true⟩ : SessionState).childKilled = true ∧
     (⟨true, true⟩ : SessionState).connClosed = true) :=
  ⟨(c7_shutdown ⟨true, [⟨false, false⟩, ⟨false, false⟩, ⟨false, false⟩]⟩).1,
   (c7_shutdown ⟨true, [⟨false, false⟩, ⟨false, false⟩, ⟨false, false⟩]⟩).2
     ⟨true, true⟩ (by decide)⟩

/-- C8 counterexample: the claim states that a client-mode invocation with
no positional arguments always requests a default shell.  The default is
guarded by the binary's basename: invoked under any name other than `hrun`
with no positional arguments, the requested command is empty — no shell (and
no command at all) is requested.  Under the name `hrun` the default is
`["sh", "-c", $SHELL]`. -/
theorem c8_counterexample :
    clientCommand "bash" [] "/bin/bash" = [] ∧
    clientCommand "hrun" [] "/bin/bash" = ["sh", "-c", "/bin/bash"] := by
  constructor
  · simp [clientCommand]
  · simp [clientCommand]

/-- C8 amended: with positional arguments the requested command is exactly
those arguments; invoked as `hrun` with no positional arguments it is
`["sh", "-c", $SHELL]` (an interactive shell launched via the SHELL
environment variable, not a login shell); invoked under any other basename
with no positional arguments it is empty. -/
theorem c8_default_command (b : String) (args : List String) (shell : String) :
    (args ≠ [] → clientCommand b args shell = args) ∧
    clientCommand "hrun" [] shell = ["sh", "-c", shell] ∧
    (b ≠ "hrun" → clientCommand b [] shell = []) := by
  refine ⟨fun h => ?_, by simp [clientCommand], fun h => ?_⟩
  · simp [clientCommand, h]
  · simp [clientCommand, h]

/-- Witness for C8 amended, at concrete invocations. -/
theorem c8_default_command_witness :
    clientCommand "hrun" ["htop"] "/bin/sh" = ["htop"] ∧
    clientCommand "hrun" [] "/bin/sh" = ["sh", "-c", "/bin/sh"] ∧
    clientCommand "remotesh" [] "/bin/sh" = [] :=
  ⟨(c8_default_command "hrun" ["htop"] "/bin/sh").1 (by decide),
   (c8_default_command "hrun" [] "/bin/sh").2.1,
   (c8_default_command "remotesh" [] "/bin/sh").2.2 (by decide)⟩

/-- C10: a complete line consumed by the control reader that does not start
with `resize:` is silently discarded — the run over the remaining stream is
identical, so the line neither changes the geometry nor contributes any
bytes to the child's input. -/
theorem c10_discard (l : List Char) (sched : List Bool)
    (chunks : List (List Char)) (g : Winsize)
    (h : resizePre.isPrefixOf l = false) :
    raceRun (false :: sched) (l :: chunks) g = raceRun sched chunks g := by
  simp [raceRun, controlStep, h]

/-- Witness for C10 at a concrete non-control line. -/
theorem c10_discard_witness :
    resizePre.isPrefixOf ("ls -la\n").toList = false ∧
    raceRun [false] [("ls -la\n").toList] ⟨80, 24⟩ = raceRun [] [] ⟨80, 24⟩ :=
  ⟨by decide, c10_discard ("ls -la\n").toList [] [] ⟨80, 24⟩ (by decide)⟩

theorem digitsToNat_all_digits {ds : List Char} {acc n : Nat}
    (h : digitsToNat acc ds = some n) : ∀ c ∈ ds, isDigitCh c = true := by
  induction ds generalizing acc with
  | nil => intro c hc; exact absurd hc (List.not_mem_nil c)
  | cons d t ih =>
    intro c hc
    rw [digitsToNat] at h
    cases hd : isDigitCh d with
    | false => rw [hd] at h; simp at h
    | true =>
      rw [hd] at h
      simp only [if_true] at h
      rcases List.mem_cons.mp hc with rfl | hc
      · exact hd
      · exact ih h c hc

theorem atoiCore_all_digits {neg : Bool} {ds : List Char} {x : Int}
    (h : atoiCore neg ds = some x) :
    ds ≠ [] ∧ ∀ c ∈ ds, isDigitCh c = true := by
  by_cases he : ds = []
  · rw [atoiCore, if_pos he] at h; exact absurd h (by simp)
  · rw [atoiCore, if_neg he] at h
    refine ⟨he, ?_⟩
    cases hdg : digitsToNat 0 ds with
    | none => rw [hdg] at h; simp at h
    | some n => exact digitsToNat_all_digits hdg

theorem atoi_ne_nil {s : List Char} {x : Int} (h : atoi s = some x) :
    s ≠ [] := by
  intro hs
  subst hs
  simp [atoi] at h

theorem atoi_chars {s : List Char} {x : Int} (h : atoi s = some x) :
    ∀ c ∈ s, c.toNat = 43 ∨ c.toNat = 45 ∨ isDigitCh c = true := by
  cases s with
  | nil => simp [atoi] at h
  | cons c0 rest =>
    rw [atoi] at h
    intro c hc
    by_cases hm : c0 = '-'
    · rw [if_pos hm] at h
      rcases List.mem_cons.mp hc with rfl | hc
      · exact Or.inr (Or.inl (by rw [hm]; decide))
      · exact Or.inr (Or.inr ((atoiCore_all_digits h).2 c hc))
    · by_cases hp : c0 = '+'
      · rw [if_neg hm, if_pos hp] at h
        rcases List.mem_cons.mp hc with rfl | hc
        · exact Or.inl (by rw [hp]; decide)
        · exact Or.inr (Or.inr ((atoiCore_all_digits h).2 c hc))
      · rw [if_neg hm, if_neg hp] at h
        exact Or.inr (Or.inr ((atoiCore_all_digits h).2 c hc))

theorem atoi_no_colon {s : List Char} {x : Int} (h : atoi s = some x) :
    ∀ c ∈ s, ¬(c = ':') := by
  intro c hc hceq
  subst hceq
  rcases atoi_chars h _ hc with h1 | h1 | h1
  · exact absurd h1 (by decide)
  · exact absurd h1 (by decide)
  · exact absurd h1 (by decide)

theorem atoi_no_space {s : List Char} {x : Int} (h : atoi s = some x) :
    ∀ c ∈ s, goIsSpace c = false := by
  intro c hc
  rcases atoi_chars h c hc with h1 | h1 | h1
  · simp only [goIsSpace, decide_eq_false_iff_not]
    omega
  · simp only [goIsSpace, decide_eq_false_iff_not]
    omega
  · have h2 : 48 ≤ c.toNat ∧ c.toNat ≤ 57 := by
      simpa [isDigitCh] using h1
    simp only [goIsSpace, decide_eq_false_iff_not]
    omega

theorem isPrefixOf_append_self (p t : List Char) :
    p.isPrefixOf (p ++ t) = true := by
  induction p with
  | nil => simp [List.isPrefixOf]
  | cons c cs ih => simp [List.isPrefixOf, ih]

theorem splitOnChar_no_sep (sep : Char) (xs : List Char)
    (h : ∀ c ∈ xs, ¬(c = sep)) : splitOnChar sep xs = [xs] := by
  induction xs with
  | nil => rfl
  | cons c t ih =>
    have hc : ¬(c = sep) := h c (List.mem_cons_self c t)
    have ht : splitOnChar sep t = [t] :=
      ih (fun d hd => h d (List.mem_cons_of_mem c hd))
    rw [splitOnChar, if_neg hc, ht]

theorem splitOnChar_append_sep (sep : Char) (xs ys : List Char)
    (h : ∀ c ∈ xs, ¬(c = sep)) :
    splitOnChar sep (xs ++ sep :: ys) = xs :: splitOnChar sep ys := by
  induction xs with
  | nil => simp [splitOnChar]
  | cons c t ih =>
    have hc : ¬(c = sep) := h c (List.mem_cons_self c t)
    have ht := ih (fun d hd => h d (List.mem_cons_of_mem c hd))
    rw [List.cons_append, splitOnChar, if_neg hc, ht]

theorem dropWhile_resizePre (t : List Char) :
    List.dropWhile goIsSpace (resizePre ++ t) = resizePre ++ t := by
  have h : goIsSpace 'r' = false := by decide
  simp [resizePre, List.dropWhile, h]

theorem dropRightWhile_append_single (p : Char → Bool) (xs : List Char)
    (c : Char) (hc : p c = true) :
    dropRightWhile p (xs ++ [c]) = dropRightWhile p xs := by
  simp [dropRightWhile, List.reverse_append, List.dropWhile, hc]

theorem dropRightWhile_append_left (p : Char → Bool) (xs tail : List Char)
    (y : Char) (ys : List Char) (hrev : tail.reverse = y :: ys)
    (hy : p y = false) : dropRightWhile p (xs ++ tail) = xs ++ tail := by
  rw [dropRightWhile, List.reverse_append, hrev, List.cons_append]
  rw [show List.dropWhile p (y :: (ys ++ xs.reverse)) = y :: (ys ++ xs.reverse)
        from by simp [List.dropWhile, hy]]
  rw [← List.cons_append, ← hrev, ← List.reverse_append, List.reverse_reverse]

theorem trim_line (a b : List Char) (hb : b ≠ [])
    (hbs : ∀ c ∈ b, goIsSpace c = false) :
    trimSpace (resizePre ++ (a ++ ':' :: (b ++ ['\n']))) =
      resizePre ++ (a ++ ':' :: b) := by
  rw [trimSpace, dropWhile_resizePre]
  have h1 : resizePre ++ (a ++ ':' :: (b ++ ['\n'])) =
      (resizePre ++ (a ++ ':' :: b)) ++ ['\n'] := by
    simp
  rw [h1, dropRightWhile_append_single goIsSpace _ '\n' (by decide)]
  obtain ⟨y, ys, hrev⟩ : ∃ y ys, b.reverse = y :: ys := by
    cases hcb : b.reverse with
    | nil => exact absurd (List.reverse_eq_nil_iff.mp hcb) hb
    | cons y ys => exact ⟨y, ys, rfl⟩
  have hyb : y ∈ b := by
    rw [← List.mem_reverse, hrev]
    exact List.mem_cons_self y ys
  have hy : goIsSpace y = false := hbs y hyb
  have hsplit : resizePre ++ (a ++ ':' :: b) =
      (resizePre ++ (a ++ [':'])) ++ b := by
    simp
  rw [hsplit]
  exact dropRightWhile_append_left goIsSpace _ b y ys hrev hy

theorem parseResize_concat (a b : List Char) (x y : Int)
    (ha : atoi a = some x) (hb : atoi b = some y) :
    parseResize (resizePre ++ (a ++ ':' :: (b ++ ['\n']))) =
      some (u16 x, u16 y) := by
  have hbs : ∀ c ∈ b, goIsSpace c = false := atoi_no_space hb
  have hb0 : b ≠ [] := atoi_ne_nil hb
  rw [parseResize, trim_line a b hb0 hbs]
  have hre : resizePre ++ (a ++ ':' :: b) =
      ['r', 'e', 's', 'i', 'z', 'e'] ++ ':' :: (a ++ ':' :: b) := rfl
  rw [hre, splitOnChar_append_sep ':' _ _ (by decide),
      splitOnChar_append_sep ':' _ _ (atoi_no_colon ha),
      splitOnChar_no_sep ':' _ (atoi_no_colon hb)]
  simp [ha, hb]

/-- C9: every resize line whose two fields parse as Go integers is applied
with both dimensions truncated to `uint16`, i.e. reduced modulo 2^16 in
two's-complement style; negative or out-of-range values are not rejected but
wrap (width -1 is applied as 65535, 65537 as 1). -/
theorem c9_u16_wrap (a b : List Char) (x y : Int) (g : Winsize)
    (ha : atoi a = some x) (hb : atoi b = some y) :
    controlStep false g (resizePre ++ (a ++ ':' :: (b ++ ['\n']))) =
      ⟨(Int.emod x 65536).toNat, (Int.emod y 65536).toNat⟩ := by
  have hpre :
      resizePre.isPrefixOf (resizePre ++ (a ++ ':' :: (b ++ ['\n']))) = true :=
    isPrefixOf_append_self _ _
  rw [controlStep, if_pos hpre, parseResize_concat a b x y ha hb]
  simp [u16]

/-- Witness for C9: the line `resize:-1:65537` is applied as 65535 columns
and 1 row. -/
theorem c9_u16_wrap_witness :
    controlStep false ⟨80, 24⟩
      (resizePre ++ (['-', '1'] ++ ':' :: (['6', '5', '5', '3', '7'] ++ ['\n']))) =
      ⟨65535, 1⟩ := by
  rw [c9_u16_wrap ['-', '1'] ['6', '5', '5', '3', '7'] (-1) 65537 ⟨80, 24⟩
      (by decide) (by decide)]
  decide

end Hrun
